import Mathlib

/-!
# terraform-provider-azureakscommand: workload-identity credential and run-command mapping

A shallow embedding of

* `internal/helpers/workloadidentity.go`: `NewWorkloadIdentityClientHack`,
  `readAssertionToken`, `GetToken`;
* `internal/provider/shared.go`: `processRunCommand`.

Go values returned as `(value, error)` are pairs `α × Option GoError`; a `nil`
pointer is `none`; a call that panics instead of returning is `Except.error`. The
collaborators the code calls (the process environment, the clock, the file system, the
MSAL confidential client) are explicit arguments, and every call to one of them is
recorded in an event trace.
-/

set_option autoImplicit false

/-! ## Go runtime values used by the code -/

/-- A Go `error` value, identified by its message. -/
structure GoError where
  msg : String
  deriving DecidableEq, Repr

namespace errors

/-- Go `errors.New`. -/
def New (text : String) : GoError := ⟨text⟩

end errors

/-- A Go run-time panic. -/
inductive GoPanic where
  | nilPointerDereference
  deriving DecidableEq, Repr

namespace time

/-- Go `time.Duration`: a signed number of nanoseconds. -/
abbrev Duration := Int

/-- Go `time.Second`. -/
def Second : Duration := 1000000000

/-- Go `time.Minute`. -/
def Minute : Duration := 60 * Second

/-- The time zone a `time.Time` carries. It affects presentation only. -/
inductive Location where
  | UTC
  | Local
  | Fixed (name : String) (offsetSeconds : Int)
  deriving DecidableEq, Repr

/-- Go `time.Time` without its monotonic reading: the instant, in nanoseconds
since the Unix epoch, and the location it is presented in. Instants are unbounded
integers; Go holds them in 64-bit seconds plus nanoseconds, a range of some 292 billion
years either side of year 1 that clock readings and token expiries stay well inside. The
monotonic reading plays no part in `GetToken`: `UTC()` strips it from the cached expiry,
and `After` then compares wall-clock instants. -/
structure Time where
  unixNano : Int
  loc : Location
  deriving DecidableEq, Repr

/-- Go `time.Time{}`: January 1, year 1, 00:00:00 UTC. -/
def Time.zero : Time := ⟨-62135596800 * 1000000000, Location.UTC⟩

/-- Go `t.Add(d)`. -/
def Time.Add (t : Time) (d : Duration) : Time := { t with unixNano := t.unixNano + d }

/-- Go `t.After(u)`: the instant of `t` is strictly later than the instant of `u`. -/
def Time.After (t u : Time) : Bool := decide (u.unixNano < t.unixNano)

/-- Go `t.UTC()`: the same instant, with the location set to UTC. -/
def Time.UTC (t : Time) : Time := { t with loc := Location.UTC }

/-- Go `t.Unix()`: whole seconds since the Unix epoch, rounded towards minus infinity. -/
def Time.Unix (t : Time) : Int := Int.fdiv t.unixNano 1000000000

end time

namespace azcore

/-- The SDK type `azcore.AccessToken`. -/
structure AccessToken where
  Token : String
  ExpiresOn : time.Time
  deriving DecidableEq, Repr

/-- Go `azcore.AccessToken{}`. -/
def AccessToken.zero : AccessToken := ⟨"", time.Time.zero⟩

end azcore

namespace policy

/-- The SDK type `policy.TokenRequestOptions`; only `Scopes` is read. -/
structure TokenRequestOptions where
  Scopes : List String
  deriving DecidableEq, Repr

end policy

namespace confidential

/-- The fields of MSAL `confidential.AuthResult` that the code reads. -/
structure AuthResult where
  AccessToken : String
  ExpiresOn : time.Time
  deriving DecidableEq, Repr

end confidential

namespace helpers

/-- The process environment as seen through `os.Getenv`: an unset variable reads as `""`. -/
abbrev Environ := String → String

/-- The struct `WorkloadIdentityClientHack`. The mutex `mu` has no field here: every
`GetToken` body runs from `Lock` to the deferred `Unlock`, which the trace records. -/
structure WorkloadIdentityClientHack where
  tenantId : String
  clientId : String
  authorityUrl : String
  tokenFilePath : String
  activeToken : Option azcore.AccessToken
  minLifetime : time.Duration
  deriving DecidableEq, Repr

/-- `NewWorkloadIdentityClientHack`, reading its four variables from `getenv`. -/
def NewWorkloadIdentityClientHack (getenv : Environ) :
    Option WorkloadIdentityClientHack × Option GoError :=
  let tenantId := getenv "AZURE_TENANT_ID"
  let clientId := getenv "AZURE_CLIENT_ID"
  let tokenFilePath := getenv "AZURE_FEDERATED_TOKEN_FILE"
  let authorityHost := getenv "AZURE_AUTHORITY_HOST"
  if tenantId = "" then
    (none, some (errors.New "AZURE_TENANT_ID must be set"))
  else if clientId = "" then
    (none, some (errors.New "AZURE_CLIENT_ID must be set"))
  else if tokenFilePath = "" then
    (none, some (errors.New "AZURE_FEDERATED_TOKEN_FILE must be set"))
  else if authorityHost = "" then
    (none, some (errors.New "AZURE_AUTHORITY_HOST must be set"))
  else
    (some
      { tenantId := tenantId
        clientId := clientId
        authorityUrl := authorityHost ++ tenantId ++ "/oauth2/token"
        tokenFilePath := tokenFilePath
        activeToken := none
        minLifetime := time.Minute * 5 },
     none)

/-- What one `GetToken` call does to the outside world and to the shared cache field,
in program order. -/
inductive Event where
  | lock
  | unlock
  | now
  | clearActiveToken
  | readFile (path : String)
  | newCredFromAssertion (assertion : String)
  | newClient (clientId : String) (authority : String)
  | acquireTokenByCredential (scopes : List String)
  | storeActiveToken (token : azcore.AccessToken)
  deriving DecidableEq, Repr

/-- The collaborators of one `GetToken` call: the clock reading `time.Now()`, `os.ReadFile`,
and the three MSAL calls. `Cred` and `Client` are the MSAL types `confidential.Credential`
and `confidential.Client`, whose contents the code never inspects. The two constructors
hand back a value together with their error, and the code passes that value on without
looking at the error, so the exchange can be called on a client that was never built:
`AcquireTokenByCredential` either returns its pair (`Except.ok`) or panics
(`Except.error`). -/
structure World (Cred Client : Type) where
  now : time.Time
  readFile : String → String × Option GoError
  newCredFromAssertion : String → Cred × Option GoError
  newClient : String → Cred → String → Client × Option GoError
  acquireTokenByCredential :
    Client → List String → Except GoPanic (confidential.AuthResult × Option GoError)

/-- The method `readAssertionToken`. -/
def WorkloadIdentityClientHack.readAssertionToken {Cred Client : Type}
    (c : WorkloadIdentityClientHack) (w : World Cred Client) : String × Option GoError :=
  let r := w.readFile c.tokenFilePath
  match r.2 with
  | some err => ("", some err)
  | none => (r.1, none)

/-- Everything a `GetToken` call leaves behind: the returned pair, the panic that ended the
call if it did not return, the receiver after the call, and the trace of the call. When
`panic` is set nothing was returned, and `token` and `err` hold zero values. -/
structure GetTokenResult where
  token : azcore.AccessToken
  err : Option GoError
  panic : Option GoPanic
  self : WorkloadIdentityClientHack
  trace : List Event
  deriving DecidableEq, Repr

/-- The method `GetToken`. The deferred `Unlock` runs on every way out, a panic of the
exchange included. -/
def WorkloadIdentityClientHack.GetToken {Cred Client : Type}
    (c : WorkloadIdentityClientHack) (w : World Cred Client)
    (opts : policy.TokenRequestOptions) : GetTokenResult :=
  let cutoff := w.now.Add c.minLifetime
  match c.activeToken.filter (fun t => t.ExpiresOn.After cutoff) with
  | some t =>
    { token := t, err := none, panic := none, self := c,
      trace := [Event.lock, Event.now, Event.unlock] }
  | none =>
    let c := { c with activeToken := none }
    let assertion := c.readAssertionToken w
    match assertion.2 with
    | some err =>
      { token := azcore.AccessToken.zero, err := some err, panic := none, self := c,
        trace := [Event.lock, Event.now, Event.clearActiveToken,
                  Event.readFile c.tokenFilePath, Event.unlock] }
    | none =>
      let cred := w.newCredFromAssertion assertion.1
      let client := w.newClient c.clientId cred.1 c.authorityUrl
      match w.acquireTokenByCredential client.1 opts.Scopes with
      | Except.error p =>
        { token := azcore.AccessToken.zero, err := none, panic := some p, self := c,
          trace := [Event.lock, Event.now, Event.clearActiveToken,
                    Event.readFile c.tokenFilePath,
                    Event.newCredFromAssertion assertion.1,
                    Event.newClient c.clientId c.authorityUrl,
                    Event.acquireTokenByCredential opts.Scopes, Event.unlock] }
      | Except.ok result =>
        match result.2 with
        | some err =>
          { token := azcore.AccessToken.zero, err := some err, panic := none, self := c,
            trace := [Event.lock, Event.now, Event.clearActiveToken,
                      Event.readFile c.tokenFilePath,
                      Event.newCredFromAssertion assertion.1,
                      Event.newClient c.clientId c.authorityUrl,
                      Event.acquireTokenByCredential opts.Scopes, Event.unlock] }
        | none =>
          let token : azcore.AccessToken :=
            { Token := result.1.AccessToken, ExpiresOn := result.1.ExpiresOn.UTC }
          { token := token, err := none, panic := none,
            self := { c with activeToken := some token },
            trace := [Event.lock, Event.now, Event.clearActiveToken,
                      Event.readFile c.tokenFilePath,
                      Event.newCredFromAssertion assertion.1,
                      Event.newClient c.clientId c.authorityUrl,
                      Event.acquireTokenByCredential opts.Scopes,
                      Event.storeActiveToken token, Event.unlock] }

/-- The number of `os.ReadFile` calls in a trace. -/
def fileReads (tr : List Event) : Nat :=
  tr.countP (fun e => match e with | Event.readFile _ => true | _ => false)

/-- The number of `AcquireTokenByCredential` calls in a trace. -/
def exchangeCalls (tr : List Event) : Nat :=
  tr.countP (fun e => match e with | Event.acquireTokenByCredential _ => true | _ => false)

end helpers

/-! ## Sequences of calls -/

namespace helpers

/-- One `GetToken` call as the credential sees it: the collaborators at the time of the
call, the requested options, and `storeTime`, the instant at which the call, if it gets
that far, assigns the new token to `activeToken` (lines 92-93). The code reads the clock
once, at line 69, before the file read and the exchange; it does not read it again at the
store, so `storeTime` is a separate instant, in a real run not earlier than `world.now`. -/
structure Call (Cred Client : Type) where
  world : World Cred Client
  opts : policy.TokenRequestOptions
  storeTime : time.Time

/-- The instant of the most recent store into `activeToken`, updated by the trace of one
call whose store, if it happens, happens at `storeTime`: a store stamps `storeTime`, a
clear without a store leaves nothing stamped, a call touching neither keeps the stamp. -/
def storedAtAfter (stamp : Option time.Time) (storeTime : time.Time) (tr : List Event) :
    Option time.Time :=
  if tr.any (fun e => match e with | Event.storeActiveToken _ => true | _ => false) then
    some storeTime
  else if tr.any (fun e => match e with | Event.clearActiveToken => true | _ => false) then
    none
  else
    stamp

/-- Run `GetToken` once per call, in order, on one credential, carrying along the instant
at which the cached token was stored. -/
def runCalls {Cred Client : Type} :
    WorkloadIdentityClientHack × Option time.Time → List (Call Cred Client) →
      WorkloadIdentityClientHack × Option time.Time
  | s, [] => s
  | s, call :: rest =>
    let r := s.1.GetToken call.world call.opts
    runCalls (r.self, storedAtAfter s.2 call.storeTime r.trace) rest

/-- The cached token, when present, expires strictly after the instant at which it was
stored. -/
def Fresh (s : WorkloadIdentityClientHack × Option time.Time) : Prop :=
  ∀ t, s.1.activeToken = some t →
    ∃ stamp, s.2 = some stamp ∧ stamp.unixNano < t.ExpiresOn.unixNano

/-- Every exchange that a run of calls from `c` performs, and that succeeds, answers with
an expiry strictly later than the instant at which its token is stored. A call performs
the exchange when it misses the cache and reads the file; what the exchange of a call
would answer is of no account when the call does not get to it. -/
def ExchangesOutliveStore {Cred Client : Type} :
    WorkloadIdentityClientHack → List (Call Cred Client) → Prop
  | _, [] => True
  | c, call :: rest =>
    (∀ assertion res,
      (∀ t, c.activeToken = some t →
        t.ExpiresOn.unixNano ≤ call.world.now.unixNano + c.minLifetime) →
      call.world.readFile c.tokenFilePath = (assertion, none) →
      call.world.acquireTokenByCredential
        (call.world.newClient c.clientId
          (call.world.newCredFromAssertion assertion).1 c.authorityUrl).1
        call.opts.Scopes = Except.ok (res, none) →
      call.storeTime.unixNano < res.ExpiresOn.unixNano) ∧
    ExchangesOutliveStore (c.GetToken call.world call.opts).self rest

/-- Run `GetToken` once per call, in order, on one credential, and collect what each call
returned and did. -/
def runResults {Cred Client : Type} :
    WorkloadIdentityClientHack → List (Call Cred Client) → List GetTokenResult
  | _, [] => []
  | c, call :: rest =>
    let r := c.GetToken call.world call.opts
    r :: runResults r.self rest

end helpers

/-! ## `internal/provider/shared.go` -/

namespace basetypes

/-- A plugin-framework string value (`types.String`). -/
inductive StringValue where
  | null
  | unknown
  | known (value : String)
  deriving DecidableEq, Repr

/-- A plugin-framework 64-bit integer value (`types.Int64`). -/
inductive Int64Value where
  | null
  | unknown
  | known (value : Int)
  deriving DecidableEq, Repr

/-- A plugin-framework map-of-strings value (`types.Map`). -/
inductive MapValue where
  | null
  | unknown
  | known (elements : List (String × StringValue))
  deriving DecidableEq, Repr

end basetypes

namespace types

/-- Framework `types.StringValue(s)`. -/
def StringValue (s : String) : basetypes.StringValue := basetypes.StringValue.known s

/-- Framework `types.StringNull()`. -/
def StringNull : basetypes.StringValue := basetypes.StringValue.null

/-- Framework `types.Int64Value(n)`. -/
def Int64Value (n : Int) : basetypes.Int64Value := basetypes.Int64Value.known n

/-- Framework `types.Int64Null()`. -/
def Int64Null : basetypes.Int64Value := basetypes.Int64Value.null

end types

namespace armcontainerservice

/-- The SDK struct `CommandResultProperties`; `ExitCode` is a `*int32`, held as its value. -/
structure CommandResultProperties where
  ExitCode : Option Int
  FinishedAt : Option time.Time
  Logs : Option String
  ProvisioningState : Option String
  Reason : Option String
  StartedAt : Option time.Time
  deriving DecidableEq, Repr

/-- The SDK struct `ManagedClustersClientRunCommandResponse`, with the fields of the
embedded `RunCommandResult`. -/
structure ManagedClustersClientRunCommandResponse where
  Properties : Option CommandResultProperties
  ID : Option String
  deriving DecidableEq, Repr

end armcontainerservice

namespace provider

/-- The struct `InvokeModel`. -/
structure InvokeModel where
  Id : basetypes.StringValue
  Name : basetypes.StringValue
  ResourceGroupName : basetypes.StringValue
  Command : basetypes.StringValue
  Context : basetypes.StringValue
  Triggers : basetypes.MapValue
  ExitCode : basetypes.Int64Value
  Output : basetypes.StringValue
  ProvisioningState : basetypes.StringValue
  ProvisioningReason : basetypes.StringValue
  StartedAt : basetypes.Int64Value
  FinishedAt : basetypes.Int64Value
  deriving DecidableEq, Repr

/-- The function `processRunCommand`. Both arguments are pointers: the result is `data` as
the function left it, and the panic that ended the call, if one did. The conversion
`int64(*ExitCode)` widens an `int32` and keeps its value. -/
def processRunCommand
    (runCommand : Option armcontainerservice.ManagedClustersClientRunCommandResponse)
    (data : InvokeModel) : InvokeModel × Option GoPanic :=
  match runCommand with
  | none => (data, some GoPanic.nilPointerDereference)
  | some runCommand =>
    let data :=
      match runCommand.ID with
      | some id => { data with Id := types.StringValue id }
      | none => { data with Id := types.StringNull }
    match runCommand.Properties with
    | none => (data, some GoPanic.nilPointerDereference)
    | some properties =>
      let data :=
        match properties.ExitCode with
        | some exitCode => { data with ExitCode := types.Int64Value exitCode }
        | none => { data with ExitCode := types.Int64Null }
      let data :=
        match properties.Logs with
        | some logs => { data with Output := types.StringValue logs }
        | none => { data with Output := types.StringNull }
      let data :=
        match properties.ProvisioningState with
        | some state => { data with ProvisioningState := types.StringValue state }
        | none => { data with ProvisioningState := types.StringNull }
      let data :=
        match properties.Reason with
        | some reason => { data with ProvisioningReason := types.StringValue reason }
        | none => { data with ProvisioningReason := types.StringNull }
      let data :=
        match properties.StartedAt with
        | some startedAt => { data with StartedAt := types.Int64Value startedAt.Unix }
        | none => { data with StartedAt := types.Int64Null }
      let data :=
        match properties.FinishedAt with
        | some finishedAt => { data with FinishedAt := types.Int64Value finishedAt.Unix }
        | none => { data with FinishedAt := types.Int64Null }
      (data, none)

end provider

/-! ## Concrete inputs -/

namespace helpers

/-- The four required variables, in the order in which the constructor checks them. -/
def requiredVariables : List String :=
  ["AZURE_TENANT_ID", "AZURE_CLIENT_ID", "AZURE_FEDERATED_TOKEN_FILE", "AZURE_AUTHORITY_HOST"]

/-- The first required variable that reads as empty, in the fixed check order. -/
def firstEmptyVariable (getenv : Environ) : Option String :=
  requiredVariables.find? (fun name => decide (getenv name = ""))

/-- An environment with every required variable set. -/
def fullEnviron : Environ := fun name =>
  if name = "AZURE_TENANT_ID" then "tenant"
  else if name = "AZURE_CLIENT_ID" then "client"
  else if name = "AZURE_FEDERATED_TOKEN_FILE" then "/var/run/token"
  else if name = "AZURE_AUTHORITY_HOST" then "https://login.example/"
  else ""

/-- An environment in which the client id and the authority host are both unset. -/
def noClientNoHostEnviron : Environ := fun name =>
  if name = "AZURE_TENANT_ID" then "tenant"
  else if name = "AZURE_FEDERATED_TOKEN_FILE" then "/var/run/token"
  else ""

/-- The credential built from `fullEnviron`. -/
def fullCredential : WorkloadIdentityClientHack :=
  { tenantId := "tenant"
    clientId := "client"
    authorityUrl := "https://login.example/tenant/oauth2/token"
    tokenFilePath := "/var/run/token"
    activeToken := none
    minLifetime := 300000000000 }

/-- A world in which the file read and the exchange succeed: the clock reads 1000 ns, the
exchange answers with an expiry of 1000 s carried in a zone one hour east of UTC. -/
def okWorld : World Unit Unit :=
  { now := ⟨1000, time.Location.Local⟩
    readFile := fun _ => ("assertion", none)
    newCredFromAssertion := fun _ => ((), none)
    newClient := fun _ _ _ => ((), none)
    acquireTokenByCredential := fun _ _ =>
      Except.ok (⟨"access", ⟨1000000000000, time.Location.Fixed "CET" 3600⟩⟩, none) }

/-- As `okWorld`, but the exchange is rejected. -/
def exchangeFailsWorld : World Unit Unit :=
  { okWorld with
    acquireTokenByCredential := fun _ _ =>
      Except.ok
        (⟨"", time.Time.zero⟩,
          some (errors.New "AADSTS70021: no matching federated identity")) }

/-- As `okWorld`, but the assertion file cannot be read. -/
def fileFailsWorld : World Unit Unit :=
  { okWorld with
    readFile := fun _ => ("", some (errors.New "open /var/run/token: no such file or directory")) }

/-- As `okWorld`, but the exchange answers with an expiry of 0 ns, before the clock
reading of 1000 ns. -/
def expiredExchangeWorld : World Unit Unit :=
  { okWorld with
    now := ⟨1000, time.Location.UTC⟩
    acquireTokenByCredential := fun _ _ =>
      Except.ok (⟨"access", ⟨0, time.Location.UTC⟩⟩, none) }

/-- As `expiredExchangeWorld`, with the clock at 5000 ns. -/
def laterExpiredExchangeWorld : World Unit Unit :=
  { expiredExchangeWorld with now := ⟨5000, time.Location.UTC⟩ }

/-- A world with an empty assertion file. `NewCredFromAssertion` rejects the empty
assertion ("assertion can't be empty string") and returns the zero `Credential`, here
`none`; `confidential.New` rejects the zero credential and returns the zero `Client`, here
`none`; `AcquireTokenByCredential` on the zero client dereferences a nil pointer and
panics. -/
def emptyAssertionWorld : World (Option String) (Option String) :=
  { now := ⟨1000, time.Location.Local⟩
    readFile := fun _ => ("", none)
    newCredFromAssertion := fun a =>
      if a = "" then (none, some (errors.New "assertion can't be empty string"))
      else (some a, none)
    newClient := fun clientId cred _ =>
      match cred with
      | none => (none, some (errors.New "invalid credential"))
      | some _ => (some clientId, none)
    acquireTokenByCredential := fun client _ =>
      match client with
      | none => Except.error GoPanic.nilPointerDereference
      | some _ => Except.ok (⟨"access", ⟨1000000000000, time.Location.UTC⟩⟩, none) }

/-- The request the provider makes: one scope. -/
def aksScope : policy.TokenRequestOptions := ⟨["6dae42f8-4368-4678-94ff-3960e28e3630"]⟩

/-- `fullCredential` holding a token that expires 1 ns after the cutoff of a call made at
1000 ns. -/
def freshCredential : WorkloadIdentityClientHack :=
  { fullCredential with
    activeToken := some ⟨"cached", ⟨300000001001, time.Location.UTC⟩⟩ }

/-- `fullCredential` holding a token that expires exactly at the cutoff of a call made at
1000 ns. -/
def staleCredential : WorkloadIdentityClientHack :=
  { fullCredential with
    activeToken := some ⟨"cached", ⟨300000001000, time.Location.UTC⟩⟩ }

/-- One call in `expiredExchangeWorld`: the clock reads 1000 ns at line 69, the exchange
answers with an expiry of 0 ns, and the token is stored at 2000 ns. -/
def expiredExchangeCalls : List (Call Unit Unit) :=
  [⟨expiredExchangeWorld, aksScope, ⟨2000, time.Location.UTC⟩⟩]

/-- A call in `okWorld`, which stores at 2000 ns a token expiring at 1000 s, and then a
call in `laterExpiredExchangeWorld`, which hits the cache: its exchange, which would
answer with an expiry of 0 ns, is never performed. -/
def refreshThenHitCalls : List (Call Unit Unit) :=
  [⟨okWorld, aksScope, ⟨2000, time.Location.UTC⟩⟩,
    ⟨laterExpiredExchangeWorld, aksScope, ⟨6000, time.Location.UTC⟩⟩]

end helpers

namespace provider

/-- A response that carries an id and no properties. -/
def responseWithoutProperties : armcontainerservice.ManagedClustersClientRunCommandResponse :=
  { Properties := none, ID := some "cmd-1" }

/-- A response with every pointer set; the start time is half a second before the epoch. -/
def completeResponse : armcontainerservice.ManagedClustersClientRunCommandResponse :=
  { Properties := some
      { ExitCode := some 1
        FinishedAt := some ⟨2500000000, time.Location.UTC⟩
        Logs := some "done"
        ProvisioningState := some "Succeeded"
        Reason := none
        StartedAt := some ⟨-500000000, time.Location.Local⟩ }
    ID := some "cmd-1" }

/-- A model with every attribute unknown, as before the first apply. -/
def unknownModel : InvokeModel :=
  { Id := basetypes.StringValue.unknown
    Name := basetypes.StringValue.unknown
    ResourceGroupName := basetypes.StringValue.unknown
    Command := basetypes.StringValue.unknown
    Context := basetypes.StringValue.unknown
    Triggers := basetypes.MapValue.unknown
    ExitCode := basetypes.Int64Value.unknown
    Output := basetypes.StringValue.unknown
    ProvisioningState := basetypes.StringValue.unknown
    ProvisioningReason := basetypes.StringValue.unknown
    StartedAt := basetypes.Int64Value.unknown
    FinishedAt := basetypes.Int64Value.unknown }

end provider

/-! ## Construction -/

namespace helpers

/-- C1. `NewWorkloadIdentityClientHack` fails exactly when one of the four required
variables is empty; a failing call returns no credential and the error
`<NAME> must be set` for the first empty variable in the order tenant id, client id,
token file, authority host; when one variable alone is empty the error names it. -/
theorem NewWorkloadIdentityClientHack_error_names_first_empty (getenv : Environ) :
    ((NewWorkloadIdentityClientHack getenv).2 ≠ none ↔
        (getenv "AZURE_TENANT_ID" = "" ∨ getenv "AZURE_CLIENT_ID" = "" ∨
          getenv "AZURE_FEDERATED_TOKEN_FILE" = "" ∨ getenv "AZURE_AUTHORITY_HOST" = "")) ∧
      ((NewWorkloadIdentityClientHack getenv).2 ≠ none ↔
        ∃ name, firstEmptyVariable getenv = some name) ∧
      (∀ name, firstEmptyVariable getenv = some name →
        NewWorkloadIdentityClientHack getenv =
          (none, some (errors.New (name ++ " must be set")))) ∧
      (∀ name ∈ requiredVariables, getenv name = "" →
        (∀ other ∈ requiredVariables, other ≠ name → getenv other ≠ "") →
        NewWorkloadIdentityClientHack getenv =
          (none, some (errors.New (name ++ " must be set")))) := by
  by_cases h1 : getenv "AZURE_TENANT_ID" = "" <;>
  by_cases h2 : getenv "AZURE_CLIENT_ID" = "" <;>
  by_cases h3 : getenv "AZURE_FEDERATED_TOKEN_FILE" = "" <;>
  by_cases h4 : getenv "AZURE_AUTHORITY_HOST" = "" <;>
  simp [NewWorkloadIdentityClientHack, firstEmptyVariable, requiredVariables, h1, h2, h3, h4]

/-- C1 at `noClientNoHostEnviron`: two variables are empty and the error names the client
id, the earlier of the two in the check order. -/
theorem NewWorkloadIdentityClientHack_error_names_first_empty_witness :
    NewWorkloadIdentityClientHack noClientNoHostEnviron =
      (none, some (errors.New "AZURE_CLIENT_ID must be set")) :=
  (NewWorkloadIdentityClientHack_error_names_first_empty noClientNoHostEnviron).2.2.1
    "AZURE_CLIENT_ID" (by decide)

/-- C2. When all four required variables are non-empty, `NewWorkloadIdentityClientHack`
succeeds: the credential carries the tenant id, client id and token file path unchanged,
its authority URL is the authority host followed directly by the tenant id and
`/oauth2/token`, its minimum lifetime is five minutes, and nothing is cached. -/
theorem NewWorkloadIdentityClientHack_success (getenv : Environ)
    (htenant : getenv "AZURE_TENANT_ID" ≠ "") (hclient : getenv "AZURE_CLIENT_ID" ≠ "")
    (hfile : getenv "AZURE_FEDERATED_TOKEN_FILE" ≠ "")
    (hhost : getenv "AZURE_AUTHORITY_HOST" ≠ "") :
    ∃ c, NewWorkloadIdentityClientHack getenv = (some c, none) ∧
      c.tenantId = getenv "AZURE_TENANT_ID" ∧
      c.clientId = getenv "AZURE_CLIENT_ID" ∧
      c.tokenFilePath = getenv "AZURE_FEDERATED_TOKEN_FILE" ∧
      c.authorityUrl =
        getenv "AZURE_AUTHORITY_HOST" ++ getenv "AZURE_TENANT_ID" ++ "/oauth2/token" ∧
      c.minLifetime = 5 * time.Minute ∧
      c.minLifetime = 5 * 60 * 1000000000 ∧
      c.activeToken = none := by
  refine ⟨{ tenantId := getenv "AZURE_TENANT_ID"
            clientId := getenv "AZURE_CLIENT_ID"
            authorityUrl :=
              getenv "AZURE_AUTHORITY_HOST" ++ getenv "AZURE_TENANT_ID" ++ "/oauth2/token"
            tokenFilePath := getenv "AZURE_FEDERATED_TOKEN_FILE"
            activeToken := none
            minLifetime := time.Minute * 5 }, ?_, rfl, rfl, rfl, rfl, ?_, ?_, rfl⟩
  · simp [NewWorkloadIdentityClientHack, htenant, hclient, hfile, hhost]
  · exact mul_comm _ _
  · simp [time.Minute, time.Second]

/-- C2 at `fullEnviron`. -/
theorem NewWorkloadIdentityClientHack_success_witness :
    ∃ c, NewWorkloadIdentityClientHack fullEnviron = (some c, none) ∧
      c.tenantId = "tenant" ∧ c.clientId = "client" ∧ c.tokenFilePath = "/var/run/token" ∧
      c.authorityUrl = "https://login.example/tenant/oauth2/token" ∧
      c.minLifetime = 5 * time.Minute ∧ c.minLifetime = 5 * 60 * 1000000000 ∧
      c.activeToken = none :=
  NewWorkloadIdentityClientHack_success fullEnviron (by decide) (by decide) (by decide)
    (by decide)

end helpers

/-! ## Token acquisition -/

namespace helpers

variable {Cred Client : Type}

/-- A cached token that does not expire strictly after the cutoff does not pass the
filter of `GetToken`. -/
theorem filter_eq_none_of_miss (c : WorkloadIdentityClientHack) (now : time.Time)
    (hmiss : ∀ t, c.activeToken = some t →
      t.ExpiresOn.unixNano ≤ now.unixNano + c.minLifetime) :
    c.activeToken.filter (fun t => t.ExpiresOn.After (now.Add c.minLifetime)) = none := by
  cases h : c.activeToken with
  | none => rfl
  | some t =>
    have := hmiss t h
    simp [Option.filter, time.Time.After, time.Time.Add]
    omega

/-- The whole result of a `GetToken` call that hits the cache. -/
theorem GetToken_eq_of_hit (c : WorkloadIdentityClientHack) (w : World Cred Client)
    (opts : policy.TokenRequestOptions) (t : azcore.AccessToken)
    (hcached : c.activeToken = some t)
    (hfresh : w.now.unixNano + c.minLifetime < t.ExpiresOn.unixNano) :
    c.GetToken w opts =
      { token := t, err := none, panic := none, self := c,
        trace := [Event.lock, Event.now, Event.unlock] } := by
  simp [WorkloadIdentityClientHack.GetToken, hcached, Option.filter, time.Time.After,
    time.Time.Add, hfresh]

/-- The whole result of a `GetToken` call that misses the cache and cannot read the file. -/
theorem GetToken_eq_of_file_error (c : WorkloadIdentityClientHack) (w : World Cred Client)
    (opts : policy.TokenRequestOptions) (content : String) (e : GoError)
    (hmiss : ∀ t, c.activeToken = some t →
      t.ExpiresOn.unixNano ≤ w.now.unixNano + c.minLifetime)
    (hfile : w.readFile c.tokenFilePath = (content, some e)) :
    c.GetToken w opts =
      { token := azcore.AccessToken.zero, err := some e, panic := none,
        self := { c with activeToken := none },
        trace := [Event.lock, Event.now, Event.clearActiveToken,
                  Event.readFile c.tokenFilePath, Event.unlock] } := by
  simp [WorkloadIdentityClientHack.GetToken, filter_eq_none_of_miss c w.now hmiss,
    WorkloadIdentityClientHack.readAssertionToken, hfile]

/-- The whole result of a `GetToken` call that misses the cache, reads the file, and whose
exchange panics. -/
theorem GetToken_eq_of_exchange_panic (c : WorkloadIdentityClientHack)
    (w : World Cred Client) (opts : policy.TokenRequestOptions) (assertion : String)
    (cred : Cred × Option GoError) (client : Client × Option GoError) (p : GoPanic)
    (hmiss : ∀ t, c.activeToken = some t →
      t.ExpiresOn.unixNano ≤ w.now.unixNano + c.minLifetime)
    (hfile : w.readFile c.tokenFilePath = (assertion, none))
    (hcred : w.newCredFromAssertion assertion = cred)
    (hclient : w.newClient c.clientId cred.1 c.authorityUrl = client)
    (hexchange : w.acquireTokenByCredential client.1 opts.Scopes = Except.error p) :
    c.GetToken w opts =
      { token := azcore.AccessToken.zero, err := none, panic := some p,
        self := { c with activeToken := none },
        trace := [Event.lock, Event.now, Event.clearActiveToken,
                  Event.readFile c.tokenFilePath, Event.newCredFromAssertion assertion,
                  Event.newClient c.clientId c.authorityUrl,
                  Event.acquireTokenByCredential opts.Scopes, Event.unlock] } := by
  subst hcred hclient
  simp [WorkloadIdentityClientHack.GetToken, filter_eq_none_of_miss c w.now hmiss,
    WorkloadIdentityClientHack.readAssertionToken, hfile, hexchange]

/-- The whole result of a `GetToken` call that misses the cache, reads the file, and whose
exchange fails. -/
theorem GetToken_eq_of_exchange_error (c : WorkloadIdentityClientHack)
    (w : World Cred Client) (opts : policy.TokenRequestOptions) (assertion : String)
    (cred : Cred × Option GoError) (client : Client × Option GoError)
    (res : confidential.AuthResult) (e : GoError)
    (hmiss : ∀ t, c.activeToken = some t →
      t.ExpiresOn.unixNano ≤ w.now.unixNano + c.minLifetime)
    (hfile : w.readFile c.tokenFilePath = (assertion, none))
    (hcred : w.newCredFromAssertion assertion = cred)
    (hclient : w.newClient c.clientId cred.1 c.authorityUrl = client)
    (hexchange :
      w.acquireTokenByCredential client.1 opts.Scopes = Except.ok (res, some e)) :
    c.GetToken w opts =
      { token := azcore.AccessToken.zero, err := some e, panic := none,
        self := { c with activeToken := none },
        trace := [Event.lock, Event.now, Event.clearActiveToken,
                  Event.readFile c.tokenFilePath, Event.newCredFromAssertion assertion,
                  Event.newClient c.clientId c.authorityUrl,
                  Event.acquireTokenByCredential opts.Scopes, Event.unlock] } := by
  subst hcred hclient
  simp [WorkloadIdentityClientHack.GetToken, filter_eq_none_of_miss c w.now hmiss,
    WorkloadIdentityClientHack.readAssertionToken, hfile, hexchange]

/-- The whole result of a `GetToken` call that misses the cache, reads the file, and whose
exchange succeeds. -/
theorem GetToken_eq_of_exchange_ok (c : WorkloadIdentityClientHack)
    (w : World Cred Client) (opts : policy.TokenRequestOptions) (assertion : String)
    (cred : Cred × Option GoError) (client : Client × Option GoError)
    (res : confidential.AuthResult)
    (hmiss : ∀ t, c.activeToken = some t →
      t.ExpiresOn.unixNano ≤ w.now.unixNano + c.minLifetime)
    (hfile : w.readFile c.tokenFilePath = (assertion, none))
    (hcred : w.newCredFromAssertion assertion = cred)
    (hclient : w.newClient c.clientId cred.1 c.authorityUrl = client)
    (hexchange : w.acquireTokenByCredential client.1 opts.Scopes = Except.ok (res, none)) :
    c.GetToken w opts =
      { token := ⟨res.AccessToken, ⟨res.ExpiresOn.unixNano, time.Location.UTC⟩⟩,
        err := none, panic := none,
        self := { c with
          activeToken := some ⟨res.AccessToken, ⟨res.ExpiresOn.unixNano, time.Location.UTC⟩⟩ },
        trace := [Event.lock, Event.now, Event.clearActiveToken,
                  Event.readFile c.tokenFilePath, Event.newCredFromAssertion assertion,
                  Event.newClient c.clientId c.authorityUrl,
                  Event.acquireTokenByCredential opts.Scopes,
                  Event.storeActiveToken
                    ⟨res.AccessToken, ⟨res.ExpiresOn.unixNano, time.Location.UTC⟩⟩,
                  Event.unlock] } := by
  subst hcred hclient
  simp [WorkloadIdentityClientHack.GetToken, filter_eq_none_of_miss c w.now hmiss,
    WorkloadIdentityClientHack.readAssertionToken, hfile, hexchange, time.Time.UTC]

/-- A call on a credential with nothing cached reads the file once, and runs the exchange
once if the read succeeds. -/
theorem GetToken_cold_counts (c : WorkloadIdentityClientHack) (w : World Cred Client)
    (opts : policy.TokenRequestOptions) (hcold : c.activeToken = none) :
    (c.GetToken w opts).trace.head? = some Event.lock ∧
      Event.readFile c.tokenFilePath ∈ (c.GetToken w opts).trace ∧
      fileReads (c.GetToken w opts).trace = 1 ∧
      ((w.readFile c.tokenFilePath).2 = none →
        exchangeCalls (c.GetToken w opts).trace = 1) := by
  have hmiss : ∀ t, c.activeToken = some t →
      t.ExpiresOn.unixNano ≤ w.now.unixNano + c.minLifetime := by
    intro t ht
    rw [hcold] at ht
    cases ht
  cases hf : w.readFile c.tokenFilePath with
  | mk content ferr =>
    cases ferr with
    | some e =>
      rw [GetToken_eq_of_file_error c w opts content e hmiss hf]
      simp [fileReads, exchangeCalls]
    | none =>
      cases hx : w.acquireTokenByCredential
          (w.newClient c.clientId (w.newCredFromAssertion content).1 c.authorityUrl).1
          opts.Scopes with
      | error p =>
        rw [GetToken_eq_of_exchange_panic c w opts content _ _ p hmiss hf rfl rfl hx]
        simp [fileReads, exchangeCalls]
      | ok result =>
        obtain ⟨res, xerr⟩ := result
        cases xerr with
        | some e =>
          rw [GetToken_eq_of_exchange_error c w opts content _ _ res e hmiss hf rfl rfl hx]
          simp [fileReads, exchangeCalls]
        | none =>
          rw [GetToken_eq_of_exchange_ok c w opts content _ _ res hmiss hf rfl rfl hx]
          simp [fileReads, exchangeCalls]

/-- C3. Cache hit: when a token is cached and its expiry is strictly later than
`now + minLifetime`, `GetToken` returns that token with no error, reads no file, calls no
exchange (its trace is lock, clock reading, unlock), whatever the requested scopes, and
leaves the credential, cached token included, as it was. -/
theorem GetToken_cache_hit (c : WorkloadIdentityClientHack) (w : World Cred Client)
    (opts : policy.TokenRequestOptions) (t : azcore.AccessToken)
    (hcached : c.activeToken = some t)
    (hfresh : w.now.unixNano + c.minLifetime < t.ExpiresOn.unixNano) :
    (c.GetToken w opts).token = t ∧
      (c.GetToken w opts).err = none ∧
      (c.GetToken w opts).panic = none ∧
      fileReads (c.GetToken w opts).trace = 0 ∧
      exchangeCalls (c.GetToken w opts).trace = 0 ∧
      (c.GetToken w opts).trace = [Event.lock, Event.now, Event.unlock] ∧
      (c.GetToken w opts).self = c ∧
      (c.GetToken w opts).self.activeToken = some t := by
  rw [GetToken_eq_of_hit c w opts t hcached hfresh]
  simp [fileReads, exchangeCalls, hcached]

/-- C3 at `freshCredential`, whose token expires 1 ns after the cutoff, in `okWorld`. -/
theorem GetToken_cache_hit_witness :
    (freshCredential.GetToken okWorld aksScope).token =
        ⟨"cached", ⟨300000001001, time.Location.UTC⟩⟩ ∧
      (freshCredential.GetToken okWorld aksScope).err = none ∧
      (freshCredential.GetToken okWorld aksScope).panic = none ∧
      fileReads (freshCredential.GetToken okWorld aksScope).trace = 0 ∧
      exchangeCalls (freshCredential.GetToken okWorld aksScope).trace = 0 ∧
      (freshCredential.GetToken okWorld aksScope).trace =
        [Event.lock, Event.now, Event.unlock] ∧
      (freshCredential.GetToken okWorld aksScope).self = freshCredential ∧
      (freshCredential.GetToken okWorld aksScope).self.activeToken =
        some ⟨"cached", ⟨300000001001, time.Location.UTC⟩⟩ :=
  GetToken_cache_hit freshCredential okWorld aksScope
    ⟨"cached", ⟨300000001001, time.Location.UTC⟩⟩ rfl (by decide)

/-- C4. Refresh: when nothing is cached, or the cached token does not expire strictly
after `now + minLifetime`, and the file read and the exchange succeed, `GetToken` reads
the file once and calls the exchange once, and both the returned token and the new cached
token are the exchange's access-token string with the exchange's expiry instant, in UTC. -/
theorem GetToken_refresh (c : WorkloadIdentityClientHack) (w : World Cred Client)
    (opts : policy.TokenRequestOptions) (assertion : String)
    (cred : Cred × Option GoError) (client : Client × Option GoError)
    (res : confidential.AuthResult)
    (hmiss : ∀ t, c.activeToken = some t →
      t.ExpiresOn.unixNano ≤ w.now.unixNano + c.minLifetime)
    (hfile : w.readFile c.tokenFilePath = (assertion, none))
    (hcred : w.newCredFromAssertion assertion = cred)
    (hclient : w.newClient c.clientId cred.1 c.authorityUrl = client)
    (hexchange : w.acquireTokenByCredential client.1 opts.Scopes = Except.ok (res, none)) :
    (c.GetToken w opts).err = none ∧
      (c.GetToken w opts).panic = none ∧
      fileReads (c.GetToken w opts).trace = 1 ∧
      exchangeCalls (c.GetToken w opts).trace = 1 ∧
      (c.GetToken w opts).token.Token = res.AccessToken ∧
      (c.GetToken w opts).token.ExpiresOn.unixNano = res.ExpiresOn.unixNano ∧
      (c.GetToken w opts).token.ExpiresOn.loc = time.Location.UTC ∧
      (c.GetToken w opts).self.activeToken = some (c.GetToken w opts).token ∧
      (c.GetToken w opts).self = { c with activeToken := some (c.GetToken w opts).token } := by
  rw [GetToken_eq_of_exchange_ok c w opts assertion cred client res hmiss hfile hcred hclient
    hexchange]
  simp [fileReads, exchangeCalls]

/-- C4 at `staleCredential`, whose token expires exactly at the cutoff, in `okWorld`: the
call refreshes, and the expiry carried in a zone east of UTC comes back in UTC. -/
theorem GetToken_refresh_witness :
    (staleCredential.GetToken okWorld aksScope).err = none ∧
      (staleCredential.GetToken okWorld aksScope).panic = none ∧
      fileReads (staleCredential.GetToken okWorld aksScope).trace = 1 ∧
      exchangeCalls (staleCredential.GetToken okWorld aksScope).trace = 1 ∧
      (staleCredential.GetToken okWorld aksScope).token.Token = "access" ∧
      (staleCredential.GetToken okWorld aksScope).token.ExpiresOn.unixNano = 1000000000000 ∧
      (staleCredential.GetToken okWorld aksScope).token.ExpiresOn.loc = time.Location.UTC ∧
      (staleCredential.GetToken okWorld aksScope).self.activeToken =
        some (staleCredential.GetToken okWorld aksScope).token ∧
      (staleCredential.GetToken okWorld aksScope).self =
        { staleCredential with
          activeToken := some (staleCredential.GetToken okWorld aksScope).token } :=
  GetToken_refresh staleCredential okWorld aksScope "assertion" ((), none) ((), none)
    ⟨"access", ⟨1000000000000, time.Location.Fixed "CET" 3600⟩⟩
    (by intro t ht; cases ht; decide) rfl rfl rfl rfl

/-- C5. Exchange failure: when `GetToken` misses the cache, reads the file, and the
exchange fails with `e`, it returns `e` with the empty access token and leaves nothing
cached, even if a stale token was cached before; the next call, in any world, reads the
file again and, if that read succeeds, runs the exchange again. -/
theorem GetToken_exchange_failure (c : WorkloadIdentityClientHack) (w : World Cred Client)
    (opts : policy.TokenRequestOptions) (assertion : String)
    (cred : Cred × Option GoError) (client : Client × Option GoError)
    (res : confidential.AuthResult) (e : GoError)
    (hmiss : ∀ t, c.activeToken = some t →
      t.ExpiresOn.unixNano ≤ w.now.unixNano + c.minLifetime)
    (hfile : w.readFile c.tokenFilePath = (assertion, none))
    (hcred : w.newCredFromAssertion assertion = cred)
    (hclient : w.newClient c.clientId cred.1 c.authorityUrl = client)
    (hexchange :
      w.acquireTokenByCredential client.1 opts.Scopes = Except.ok (res, some e)) :
    (c.GetToken w opts).err = some e ∧
      (c.GetToken w opts).panic = none ∧
      (c.GetToken w opts).token = azcore.AccessToken.zero ∧
      (c.GetToken w opts).token.Token = "" ∧
      (c.GetToken w opts).self.activeToken = none ∧
      (c.GetToken w opts).self = { c with activeToken := none } ∧
      ∀ (w2 : World Cred Client) (opts2 : policy.TokenRequestOptions),
        Event.readFile c.tokenFilePath ∈ ((c.GetToken w opts).self.GetToken w2 opts2).trace ∧
        fileReads ((c.GetToken w opts).self.GetToken w2 opts2).trace = 1 ∧
        ((w2.readFile c.tokenFilePath).2 = none →
          exchangeCalls ((c.GetToken w opts).self.GetToken w2 opts2).trace = 1) := by
  rw [GetToken_eq_of_exchange_error c w opts assertion cred client res e hmiss hfile hcred
    hclient hexchange]
  refine ⟨rfl, rfl, rfl, rfl, rfl, rfl, ?_⟩
  intro w2 opts2
  have h := GetToken_cold_counts { c with activeToken := none } w2 opts2 rfl
  exact ⟨h.2.1, h.2.2.1, h.2.2.2⟩

/-- C5 at `staleCredential` in `exchangeFailsWorld`: the stale token is gone after the
failed call. -/
theorem GetToken_exchange_failure_witness :
    (staleCredential.GetToken exchangeFailsWorld aksScope).err =
        some (errors.New "AADSTS70021: no matching federated identity") ∧
      (staleCredential.GetToken exchangeFailsWorld aksScope).panic = none ∧
      (staleCredential.GetToken exchangeFailsWorld aksScope).token = azcore.AccessToken.zero ∧
      (staleCredential.GetToken exchangeFailsWorld aksScope).token.Token = "" ∧
      (staleCredential.GetToken exchangeFailsWorld aksScope).self.activeToken = none ∧
      (staleCredential.GetToken exchangeFailsWorld aksScope).self =
        { staleCredential with activeToken := none } ∧
      ∀ (w2 : World Unit Unit) (opts2 : policy.TokenRequestOptions),
        Event.readFile staleCredential.tokenFilePath ∈
          ((staleCredential.GetToken exchangeFailsWorld aksScope).self.GetToken w2 opts2).trace ∧
        fileReads
          ((staleCredential.GetToken exchangeFailsWorld aksScope).self.GetToken w2 opts2).trace
            = 1 ∧
        ((w2.readFile staleCredential.tokenFilePath).2 = none →
          exchangeCalls
            ((staleCredential.GetToken exchangeFailsWorld aksScope).self.GetToken w2
              opts2).trace = 1) :=
  GetToken_exchange_failure staleCredential exchangeFailsWorld aksScope "assertion"
    ((), none) ((), none) ⟨"", time.Time.zero⟩
    (errors.New "AADSTS70021: no matching federated identity")
    (by intro t ht; cases ht; decide) rfl rfl rfl rfl

/-- C6. File-read failure: when `GetToken` misses the cache and reading the assertion file
fails with `e`, it returns `e` with the empty access token, makes no MSAL call at all (in
particular no exchange call), and leaves nothing cached. -/
theorem GetToken_file_read_failure (c : WorkloadIdentityClientHack) (w : World Cred Client)
    (opts : policy.TokenRequestOptions) (content : String) (e : GoError)
    (hmiss : ∀ t, c.activeToken = some t →
      t.ExpiresOn.unixNano ≤ w.now.unixNano + c.minLifetime)
    (hfile : w.readFile c.tokenFilePath = (content, some e)) :
    c.readAssertionToken w = ("", some e) ∧
      (c.GetToken w opts).err = some e ∧
      (c.GetToken w opts).panic = none ∧
      (c.GetToken w opts).token = azcore.AccessToken.zero ∧
      (c.GetToken w opts).token.Token = "" ∧
      exchangeCalls (c.GetToken w opts).trace = 0 ∧
      (c.GetToken w opts).trace =
        [Event.lock, Event.now, Event.clearActiveToken, Event.readFile c.tokenFilePath,
          Event.unlock] ∧
      (c.GetToken w opts).self.activeToken = none := by
  rw [GetToken_eq_of_file_error c w opts content e hmiss hfile]
  refine ⟨?_, rfl, rfl, rfl, rfl, ?_, rfl, rfl⟩
  · simp [WorkloadIdentityClientHack.readAssertionToken, hfile]
  · simp [exchangeCalls]

/-- C6 at `staleCredential` in `fileFailsWorld`. -/
theorem GetToken_file_read_failure_witness :
    staleCredential.readAssertionToken fileFailsWorld =
        ("", some (errors.New "open /var/run/token: no such file or directory")) ∧
      (staleCredential.GetToken fileFailsWorld aksScope).err =
        some (errors.New "open /var/run/token: no such file or directory") ∧
      (staleCredential.GetToken fileFailsWorld aksScope).panic = none ∧
      (staleCredential.GetToken fileFailsWorld aksScope).token = azcore.AccessToken.zero ∧
      (staleCredential.GetToken fileFailsWorld aksScope).token.Token = "" ∧
      exchangeCalls (staleCredential.GetToken fileFailsWorld aksScope).trace = 0 ∧
      (staleCredential.GetToken fileFailsWorld aksScope).trace =
        [Event.lock, Event.now, Event.clearActiveToken,
          Event.readFile staleCredential.tokenFilePath, Event.unlock] ∧
      (staleCredential.GetToken fileFailsWorld aksScope).self.activeToken = none :=
  GetToken_file_read_failure staleCredential fileFailsWorld aksScope ""
    (errors.New "open /var/run/token: no such file or directory")
    (by intro t ht; cases ht; decide) rfl

/-- C9, refuted on the code. On a cache miss with a readable file, whatever
`NewCredFromAssertion` and `confidential.New` return, their errors included, `GetToken`
goes on through both constructors into `AcquireTokenByCredential`: the exchange call is
performed, once, and the way the call ends is the way the exchange ends. A panic of the
exchange ends it in that panic; an error of the exchange is the error returned; a
successful exchange makes the call succeed. The errors of the two constructors are tested
nowhere and returned nowhere. -/
theorem GetToken_enters_exchange_whatever_constructors_return
    (c : WorkloadIdentityClientHack) (w : World Cred Client)
    (opts : policy.TokenRequestOptions) (assertion : String)
    (cred : Cred × Option GoError) (client : Client × Option GoError)
    (hmiss : ∀ t, c.activeToken = some t →
      t.ExpiresOn.unixNano ≤ w.now.unixNano + c.minLifetime)
    (hfile : w.readFile c.tokenFilePath = (assertion, none))
    (hcred : w.newCredFromAssertion assertion = cred)
    (hclient : w.newClient c.clientId cred.1 c.authorityUrl = client) :
    (c.GetToken w opts).trace.take 7 =
        [Event.lock, Event.now, Event.clearActiveToken, Event.readFile c.tokenFilePath,
          Event.newCredFromAssertion assertion, Event.newClient c.clientId c.authorityUrl,
          Event.acquireTokenByCredential opts.Scopes] ∧
      exchangeCalls (c.GetToken w opts).trace = 1 ∧
      (∀ p, w.acquireTokenByCredential client.1 opts.Scopes = Except.error p →
        (c.GetToken w opts).panic = some p) ∧
      (∀ res e, w.acquireTokenByCredential client.1 opts.Scopes = Except.ok (res, some e) →
        (c.GetToken w opts).panic = none ∧ (c.GetToken w opts).err = some e) ∧
      (∀ res, w.acquireTokenByCredential client.1 opts.Scopes = Except.ok (res, none) →
        (c.GetToken w opts).panic = none ∧ (c.GetToken w opts).err = none ∧
          (c.GetToken w opts).token.Token = res.AccessToken) := by
  cases hx : w.acquireTokenByCredential client.1 opts.Scopes with
  | error p =>
    rw [GetToken_eq_of_exchange_panic c w opts assertion cred client p hmiss hfile hcred
      hclient hx]
    simp [exchangeCalls]
  | ok result =>
    obtain ⟨res, xerr⟩ := result
    cases xerr with
    | some e =>
      rw [GetToken_eq_of_exchange_error c w opts assertion cred client res e hmiss hfile
        hcred hclient hx]
      simp [exchangeCalls]
    | none =>
      rw [GetToken_eq_of_exchange_ok c w opts assertion cred client res hmiss hfile hcred
        hclient hx]
      simp [exchangeCalls]

/-- C9 at the failing input, `fullCredential` in `emptyAssertionWorld`: the token file is
empty, `NewCredFromAssertion` fails with "assertion can't be empty string" and
`confidential.New` fails on the zero credential; `GetToken` enters the exchange all the
same and ends in its nil-pointer panic, returning neither constructor's error. -/
theorem GetToken_enters_exchange_whatever_constructors_return_witness :
    (emptyAssertionWorld.newCredFromAssertion "").2 =
        some (errors.New "assertion can't be empty string") ∧
      (emptyAssertionWorld.newClient "client" none
          "https://login.example/tenant/oauth2/token").2 =
        some (errors.New "invalid credential") ∧
      (fullCredential.GetToken emptyAssertionWorld aksScope).trace.take 7 =
        [Event.lock, Event.now, Event.clearActiveToken, Event.readFile "/var/run/token",
          Event.newCredFromAssertion "",
          Event.newClient "client" "https://login.example/tenant/oauth2/token",
          Event.acquireTokenByCredential ["6dae42f8-4368-4678-94ff-3960e28e3630"]] ∧
      exchangeCalls (fullCredential.GetToken emptyAssertionWorld aksScope).trace = 1 ∧
      (fullCredential.GetToken emptyAssertionWorld aksScope).panic =
        some GoPanic.nilPointerDereference ∧
      (fullCredential.GetToken emptyAssertionWorld aksScope).err ≠
        some (errors.New "assertion can't be empty string") ∧
      (fullCredential.GetToken emptyAssertionWorld aksScope).err ≠
        some (errors.New "invalid credential") :=
  have h := GetToken_enters_exchange_whatever_constructors_return fullCredential
    emptyAssertionWorld aksScope ""
    (none, some (errors.New "assertion can't be empty string"))
    (none, some (errors.New "invalid credential"))
    (by intro t ht; cases ht) rfl rfl rfl
  ⟨rfl, rfl, h.1, h.2.1, h.2.2.1 GoPanic.nilPointerDereference rfl, by decide, by decide⟩

end helpers

/-! ## Freshness of the cached token -/

namespace helpers

variable {Cred Client : Type}

/-- One `GetToken` call keeps `Fresh`, provided the exchange of the call, if the call
performs it and it succeeds, answers with an expiry strictly later than the instant at
which the call stores the token. -/
theorem Fresh_step (s : WorkloadIdentityClientHack × Option time.Time)
    (call : Call Cred Client) (hs : Fresh s)
    (hexp : ∀ assertion res,
      (∀ t, s.1.activeToken = some t →
        t.ExpiresOn.unixNano ≤ call.world.now.unixNano + s.1.minLifetime) →
      call.world.readFile s.1.tokenFilePath = (assertion, none) →
      call.world.acquireTokenByCredential
        (call.world.newClient s.1.clientId
          (call.world.newCredFromAssertion assertion).1 s.1.authorityUrl).1
        call.opts.Scopes = Except.ok (res, none) →
      call.storeTime.unixNano < res.ExpiresOn.unixNano) :
    Fresh ((s.1.GetToken call.world call.opts).self,
      storedAtAfter s.2 call.storeTime (s.1.GetToken call.world call.opts).trace) := by
  by_cases hhit : ∃ t, s.1.activeToken = some t ∧
      call.world.now.unixNano + s.1.minLifetime < t.ExpiresOn.unixNano
  · obtain ⟨t, ht, hlt⟩ := hhit
    rw [GetToken_eq_of_hit s.1 call.world call.opts t ht hlt]
    simpa [storedAtAfter, Fresh] using hs
  · have hmiss : ∀ t, s.1.activeToken = some t →
        t.ExpiresOn.unixNano ≤ call.world.now.unixNano + s.1.minLifetime := by
      intro t ht
      by_contra hcon
      exact hhit ⟨t, ht, by omega⟩
    cases hf : call.world.readFile s.1.tokenFilePath with
    | mk content ferr =>
      cases ferr with
      | some e =>
        rw [GetToken_eq_of_file_error s.1 call.world call.opts content e hmiss hf]
        simp [Fresh]
      | none =>
        cases hx : call.world.acquireTokenByCredential
            (call.world.newClient s.1.clientId
              (call.world.newCredFromAssertion content).1 s.1.authorityUrl).1
            call.opts.Scopes with
        | error p =>
          rw [GetToken_eq_of_exchange_panic s.1 call.world call.opts content _ _ p
            hmiss hf rfl rfl hx]
          simp [Fresh]
        | ok result =>
          obtain ⟨res, xerr⟩ := result
          cases xerr with
          | some e =>
            rw [GetToken_eq_of_exchange_error s.1 call.world call.opts content _ _ res e
              hmiss hf rfl rfl hx]
            simp [Fresh]
          | none =>
            rw [GetToken_eq_of_exchange_ok s.1 call.world call.opts content _ _ res
              hmiss hf rfl rfl hx]
            have := hexp content res hmiss hf hx
            simpa [Fresh, storedAtAfter] using this

/-- A run of calls keeps `Fresh` when every exchange it performs outlives its store. -/
theorem Fresh_runCalls (calls : List (Call Cred Client)) :
    ∀ s : WorkloadIdentityClientHack × Option time.Time, Fresh s →
      ExchangesOutliveStore s.1 calls → Fresh (runCalls s calls) := by
  induction calls with
  | nil => intro s hs _; simpa [runCalls] using hs
  | cons call rest ih =>
    intro s hs hexp
    simp only [runCalls]
    exact ih _ (Fresh_step s call hs hexp.1) hexp.2

/-- The proviso cannot be spared: if every state along a run is `Fresh`, then every
exchange the run performs outlives its store. -/
theorem ExchangesOutliveStore_of_Fresh (calls : List (Call Cred Client)) :
    ∀ s : WorkloadIdentityClientHack × Option time.Time,
      (∀ k, Fresh (runCalls s (calls.take k))) → ExchangesOutliveStore s.1 calls := by
  induction calls with
  | nil => intro s _; trivial
  | cons call rest ih =>
    intro s h
    refine ⟨?_, ?_⟩
    · intro assertion res hmiss hf hx
      have h1 := h 1
      simp only [List.take_succ_cons, List.take_zero, runCalls] at h1
      rw [GetToken_eq_of_exchange_ok s.1 call.world call.opts assertion _ _ res
        hmiss hf rfl rfl hx] at h1
      obtain ⟨stamp, hstamp, hlt⟩ := h1 _ rfl
      simp [storedAtAfter] at hstamp
      rw [← hstamp] at hlt
      exact hlt
    · apply ih ((s.1.GetToken call.world call.opts).self,
        storedAtAfter s.2 call.storeTime (s.1.GetToken call.world call.opts).trace)
      intro k
      have hk := h (k + 1)
      simpa only [List.take_succ_cons, runCalls] using hk

/-- C7, as stated, fails. A new credential makes one call: the clock reads 1000 ns, the
exchange succeeds with an expiry of 0 ns, and the token is stored at 2000 ns. The cached
token expires before the instant at which it was stored, and before the clock reading of
the call as well. -/
theorem Fresh_fails_after_expired_exchange :
    NewWorkloadIdentityClientHack fullEnviron = (some fullCredential, none) ∧
      runCalls (fullCredential, none) expiredExchangeCalls =
        ({ fullCredential with
            activeToken := some ⟨"access", ⟨0, time.Location.UTC⟩⟩ },
          some ⟨2000, time.Location.UTC⟩) ∧
      ¬ Fresh (runCalls (fullCredential, none) expiredExchangeCalls) := by
  have hrun : runCalls (fullCredential, none) expiredExchangeCalls =
      ({ fullCredential with
          activeToken := some ⟨"access", ⟨0, time.Location.UTC⟩⟩ },
        some ⟨2000, time.Location.UTC⟩) := by decide
  refine ⟨by decide, hrun, ?_⟩
  rw [hrun]
  intro h
  obtain ⟨stamp, hstamp, hlt⟩ := h _ rfl
  cases hstamp
  exact absurd hlt (by decide)

/-- C7, amended. In every state reached from a newly constructed credential by a sequence
of `GetToken` calls, with arbitrary file-read and exchange results and arbitrary clock
readings, the cached token, when present, expires strictly after the instant at which it
was stored, provided every exchange that the sequence performs, and that succeeds, answers
with an expiry strictly later than the instant at which its token is stored. -/
theorem Fresh_of_new_credential (getenv : Environ) (c : WorkloadIdentityClientHack)
    (calls : List (Call Cred Client))
    (hnew : NewWorkloadIdentityClientHack getenv = (some c, none))
    (hexp : ExchangesOutliveStore c calls) :
    Fresh (runCalls (c, none) calls) := by
  have hcold : c.activeToken = none := by
    unfold NewWorkloadIdentityClientHack at hnew
    simp only at hnew
    split_ifs at hnew <;> simp at hnew
    rw [← hnew]
  apply Fresh_runCalls calls (c, none) _ hexp
  intro t ht
  rw [hcold] at ht
  cases ht

/-- C7, amended, at `refreshThenHitCalls` on the credential of `fullEnviron`: the first
call stores at 2000 ns a token expiring at 1000 s; the second call hits the cache, and
what its exchange would have answered, an expiry of 0 ns, does not matter. -/
theorem Fresh_of_new_credential_witness :
    ExchangesOutliveStore fullCredential refreshThenHitCalls ∧
      Fresh (runCalls (fullCredential, none) refreshThenHitCalls) :=
  have hexp : ExchangesOutliveStore fullCredential refreshThenHitCalls := by
    refine ⟨?_, ?_, trivial⟩
    · intro assertion res _ _ hx
      cases hx
      decide
    · intro assertion res hmiss _ _
      exact absurd (hmiss ⟨"access", ⟨1000000000000, time.Location.UTC⟩⟩ (by decide))
        (by decide)
  ⟨hexp, Fresh_of_new_credential fullEnviron fullCredential refreshThenHitCalls (by decide)
    hexp⟩

end helpers

/-! ## Calls run one after another -/

namespace helpers

variable {Cred Client : Type}

/-- Calls made one after another while the cached token stays ahead of every cutoff all
return the cached token and touch neither the file nor the exchange. -/
theorem runResults_of_cached (calls : List (Call Cred Client)) :
    ∀ (c : WorkloadIdentityClientHack) (t : azcore.AccessToken),
      c.activeToken = some t →
      (∀ call ∈ calls, call.world.now.unixNano + c.minLifetime < t.ExpiresOn.unixNano) →
      ∀ r ∈ runResults c calls,
        r.token = t ∧ r.err = none ∧ fileReads r.trace = 0 ∧ exchangeCalls r.trace = 0 := by
  induction calls with
  | nil => intro c t _ _ r hr; simp [runResults] at hr
  | cons call rest ih =>
    intro c t hc hclock r hr
    have hhit := GetToken_eq_of_hit c call.world call.opts t hc
      (hclock call (List.mem_cons_self _ _))
    simp only [runResults, List.mem_cons] at hr
    rcases hr with hr | hr
    · subst hr
      rw [hhit]
      simp [fileReads, exchangeCalls]
    · rw [hhit] at hr
      exact ih c t hc (fun call2 hmem => hclock call2 (List.mem_cons_of_mem _ hmem)) r hr

/-- Calls made one after another on a credential with nothing cached, in any order: when
the first call reads the file, its exchange succeeds, and the expiry it answers with is
ahead of the cutoff of every later call, the whole run reads the file once and calls the
exchange once, and every call returns the token of that one exchange. -/
theorem runResults_of_cold (c : WorkloadIdentityClientHack) (first : Call Cred Client)
    (rest : List (Call Cred Client)) (assertion : String)
    (res : confidential.AuthResult)
    (hcold : c.activeToken = none)
    (hfile : first.world.readFile c.tokenFilePath = (assertion, none))
    (hexchange : first.world.acquireTokenByCredential
      (first.world.newClient c.clientId
        (first.world.newCredFromAssertion assertion).1 c.authorityUrl).1
      first.opts.Scopes = Except.ok (res, none))
    (hclock : ∀ call ∈ rest,
      call.world.now.unixNano + c.minLifetime < res.ExpiresOn.unixNano) :
    (∀ r ∈ runResults c (first :: rest),
        r.err = none ∧
          r.token = ⟨res.AccessToken, ⟨res.ExpiresOn.unixNano, time.Location.UTC⟩⟩) ∧
      ((runResults c (first :: rest)).map (fun r => fileReads r.trace)).sum = 1 ∧
      ((runResults c (first :: rest)).map (fun r => exchangeCalls r.trace)).sum = 1 := by
  have hmiss : ∀ t, c.activeToken = some t →
      t.ExpiresOn.unixNano ≤ first.world.now.unixNano + c.minLifetime := by
    intro t ht
    rw [hcold] at ht
    cases ht
  have hfirst := GetToken_eq_of_exchange_ok c first.world first.opts assertion _ _ res
    hmiss hfile rfl rfl hexchange
  have hrest := runResults_of_cached rest
    { c with
      activeToken := some ⟨res.AccessToken, ⟨res.ExpiresOn.unixNano, time.Location.UTC⟩⟩ }
    ⟨res.AccessToken, ⟨res.ExpiresOn.unixNano, time.Location.UTC⟩⟩ rfl hclock
  simp only [runResults, hfirst]
  refine ⟨?_, ?_, ?_⟩
  · intro r hr
    simp only [List.mem_cons] at hr
    rcases hr with hr | hr
    · subst hr
      exact ⟨rfl, rfl⟩
    · exact ⟨(hrest r hr).2.1, (hrest r hr).1⟩
  · have hzero : ((runResults
          { c with
            activeToken :=
              some ⟨res.AccessToken, ⟨res.ExpiresOn.unixNano, time.Location.UTC⟩⟩ }
          rest).map (fun r => fileReads r.trace)).sum = 0 := by
      apply List.sum_eq_zero
      intro n hn
      obtain ⟨r, hr, rfl⟩ := List.mem_map.mp hn
      exact (hrest r hr).2.2.1
    rw [List.map_cons, List.sum_cons, hzero]
    simp [fileReads]
  · have hzero : ((runResults
          { c with
            activeToken :=
              some ⟨res.AccessToken, ⟨res.ExpiresOn.unixNano, time.Location.UTC⟩⟩ }
          rest).map (fun r => exchangeCalls r.trace)).sum = 0 := by
      apply List.sum_eq_zero
      intro n hn
      obtain ⟨r, hr, rfl⟩ := List.mem_map.mp hn
      exact (hrest r hr).2.2.2
    rw [List.map_cons, List.sum_cons, hzero]
    simp [exchangeCalls]

end helpers

/-! ## Run-command results -/

namespace provider

/-- With the response and its `Properties` both present, `processRunCommand` ends without
a panic, sets the seven computed attributes from the response, each to null when its
source pointer is nil, and leaves the other attributes alone. -/
theorem processRunCommand_of_properties
    (properties : armcontainerservice.CommandResultProperties) (id : Option String)
    (data : InvokeModel) :
    processRunCommand (some ⟨some properties, id⟩) data =
      ({ data with
          Id := (id.map basetypes.StringValue.known).getD basetypes.StringValue.null
          ExitCode :=
            (properties.ExitCode.map basetypes.Int64Value.known).getD
              basetypes.Int64Value.null
          Output :=
            (properties.Logs.map basetypes.StringValue.known).getD
              basetypes.StringValue.null
          ProvisioningState :=
            (properties.ProvisioningState.map basetypes.StringValue.known).getD
              basetypes.StringValue.null
          ProvisioningReason :=
            (properties.Reason.map basetypes.StringValue.known).getD
              basetypes.StringValue.null
          StartedAt :=
            (properties.StartedAt.map
              (fun t => basetypes.Int64Value.known (Int.fdiv t.unixNano 1000000000))).getD
              basetypes.Int64Value.null
          FinishedAt :=
            (properties.FinishedAt.map
              (fun t => basetypes.Int64Value.known (Int.fdiv t.unixNano 1000000000))).getD
              basetypes.Int64Value.null },
        none) := by
  obtain ⟨exitCode, finishedAt, logs, state, reason, startedAt⟩ := properties
  cases id <;> cases exitCode <;> cases finishedAt <;> cases logs <;> cases state <;>
    cases reason <;> cases startedAt <;> rfl

/-- C10, at the failing input. On a response whose `Properties` pointer is nil,
`processRunCommand` sets `Id` and then panics on the nil pointer, whatever the id and the
model it was given; the other attributes are never set. -/
theorem processRunCommand_panics_without_properties (id : Option String)
    (data : InvokeModel) :
    (processRunCommand (some ⟨none, id⟩) data).2 = some GoPanic.nilPointerDereference ∧
      (processRunCommand (some responseWithoutProperties) unknownModel).2 =
        some GoPanic.nilPointerDereference ∧
      (processRunCommand (some responseWithoutProperties) unknownModel).1 =
        { unknownModel with Id := basetypes.StringValue.known "cmd-1" } ∧
      (processRunCommand (some completeResponse) unknownModel).2 = none := by
  refine ⟨?_, by decide, by decide, by decide⟩
  cases id <;> rfl

end provider
